import Mathlib

/-!
Verification of the strabra1979 property-inspection backend configuration
core: a shallow embedding of the inspection-criteria service, the dashboard
template composer and the property-access workflow, with theorems settling
the behavioural claims of the specification.

Conventions of the embedding:
* Each NestJS service method throwing `NotFoundException`, `BadRequestException`,
  `ForbiddenException` or `ConflictException` becomes a function returning
  `Except Err _`; throwing before the persistence write is modelled by the
  `.error` branch being taken before any updated state is built.
* Prisma JSON arrays become Lean `List`s, timestamps become `Nat`, nullable
  columns become `Option`.
* `Date.now()`-derived generated keys are parametrised by an explicit
  timestamp argument.
-/

namespace Strabra

/-- HTTP error taxonomy used by the services (`NotFoundException`,
`BadRequestException`, `ForbiddenException`, `ConflictException`). -/
inductive Err where
  | notFound
  | badRequest
  | forbidden
  | conflict
deriving DecidableEq, Repr

/-- Decidable equality on `Except`, so witnesses can evaluate service
results by `decide`. -/
instance {ε α : Type} [DecidableEq ε] [DecidableEq α] : DecidableEq (Except ε α) :=
  fun x y =>
    match x, y with
    | .error e, .error f =>
      if h : e = f then .isTrue (congrArg Except.error h)
      else .isFalse (fun hc => h (Except.error.inj hc))
    | .error _, .ok _ => .isFalse (fun hc => Except.noConfusion hc)
    | .ok _, .error _ => .isFalse (fun hc => Except.noConfusion hc)
    | .ok a, .ok b =>
      if h : a = b then .isTrue (congrArg Except.ok h)
      else .isFalse (fun hc => h (Except.ok.inj hc))

-- ───────────────────────── Inspection criteria data model ─────────────────────

/-- Source `HeaderField.type` in `inspection-criteria.service.ts`. -/
inductive HeaderFieldType where
  | text
  | dropdown
deriving DecidableEq, Repr

/-- Source `MediaField.type` in `inspection-criteria.service.ts`. -/
inductive MediaFieldType where
  | file
  | embed
  | document
deriving DecidableEq, Repr

/-- The `HeaderField` record stored in the `headerFields` JSON array. -/
structure HeaderField where
  key : String
  label : String
  type : HeaderFieldType
  placeholder : String
  required : Bool
  isSystem : Bool
  order : Nat
  options : Option (List String)
deriving DecidableEq, Repr

/-- The `ScoringCategory` record stored in the `scoringCategories` JSON array.
`maxPoints` is validated as an integer in `[1,100]` by the DTOs, so `Nat`. -/
structure ScoringCategory where
  key : String
  label : String
  maxPoints : Nat
  isSystem : Bool
  order : Nat
deriving DecidableEq, Repr

/-- The `MediaField` record stored in the `mediaFields` JSON array. -/
structure MediaField where
  key : String
  label : String
  placeholder : String
  type : MediaFieldType
  isSystem : Bool
  order : Nat
  accept : Option (List String)
deriving DecidableEq, Repr

/-- An `InspectionCriteria` row restricted to the columns the verified
operations read or write (the config objects are never touched by them). -/
structure Criteria where
  id : String
  name : String
  headerFields : List HeaderField
  scoringCategories : List ScoringCategory
  mediaFields : List MediaField
deriving DecidableEq, Repr

-- ───────────────────────── DTOs (validated request bodies) ────────────────────

/-- Source `AddScoringCategoryDto`: `maxPoints` is `@IsInt @Min(1) @Max(100)`. -/
structure AddScoringCategoryDto where
  label : String
  maxPoints : Nat
deriving DecidableEq, Repr

/-- Source `UpdateScoringCategoryDto`: both fields optional. -/
structure UpdateScoringCategoryDto where
  label : Option String
  maxPoints : Option Nat
deriving DecidableEq, Repr

/-- Source `AddMediaFieldDto`. -/
structure AddMediaFieldDto where
  label : String
  placeholder : Option String
  isMediaFile : Bool
  isEmbedded : Bool
  accept : Option (List String)
deriving DecidableEq, Repr

-- ───────────────────────── Generic helpers ────────────────────────────────────

/-- Source `categories.reduce((sum, c) => sum + c.maxPoints, 0)`. -/
def totalMaxPoints (l : List ScoringCategory) : Nat :=
  l.foldl (fun s c => s + c.maxPoints) 0

/-- Source `arr[idx] = f(arr[idx])` where `idx = arr.findIndex(p)`: replace the first
element satisfying `p` (no-op when none does, which the services rule out by a
prior not-found check). -/
def setAtFirst {α : Type} (p : α → Bool) (f : α → α) : List α → List α
  | [] => []
  | a :: as => if p a then f a :: as else a :: setAtFirst p f as

/-- Source `.map((f, i) => ({ ...f, order: i + 1 }))` starting at index `i₀`:
renumber `order` to consecutive values. `setOrder` writes the order field. -/
def renumberWith {α : Type} (setOrder : α → Nat → α) : Nat → List α → List α
  | _, [] => []
  | i, a :: as => setOrder a (i + 1) :: renumberWith setOrder (i + 1) as

-- ───────────────────────── Scoring-category operations ────────────────────────

/-- Source `addScoringCategory` (inspection-criteria.service.ts): rejects when the
current total plus the new `maxPoints` exceeds 100, otherwise appends an
`isSystem=false` category with key `custom_cat_{timestamp}` and the next
order. -/
def addScoringCategory (c : Criteria) (dto : AddScoringCategoryDto) (ts : Nat) :
    Except Err Criteria :=
  let categories := c.scoringCategories
  let currentTotal := totalMaxPoints categories
  if currentTotal + dto.maxPoints > 100 then
    .error .badRequest
  else
    let newCategory : ScoringCategory :=
      { key := "custom_cat_" ++ toString ts
        label := dto.label
        maxPoints := dto.maxPoints
        isSystem := false
        order := categories.length + 1 }
    .ok { c with scoringCategories := categories ++ [newCategory] }

/-- Source `updateScoringCategory`: not-found on unknown key, forbidden when a
the `maxPoints` of a system category would change, bad-request when the budget
(sum of all other categories plus the new value) would exceed 100, else
replaces label / maxPoints of the addressed category. -/
def updateScoringCategory (c : Criteria) (categoryKey : String)
    (dto : UpdateScoringCategoryDto) : Except Err Criteria :=
  let categories := c.scoringCategories
  match categories.find? (fun cat => cat.key == categoryKey) with
  | none => .error .notFound
  | some category =>
    if category.isSystem && dto.maxPoints.isSome then
      .error .forbidden
    else
      let budgetViolated : Bool :=
        match dto.maxPoints with
        | some p =>
          totalMaxPoints (categories.filter (fun cat => cat.key != categoryKey)) + p > 100
        | none => false
      if budgetViolated then
        .error .badRequest
      else
        let categories' :=
          setAtFirst (fun cat => cat.key == categoryKey)
            (fun cat =>
              { cat with
                label := dto.label.getD cat.label
                maxPoints := dto.maxPoints.getD cat.maxPoints })
            categories
        .ok { c with scoringCategories := categories' }

/-- Source `removeScoringCategory`: not-found on unknown key, forbidden on
`isSystem=true`, else filters the category out and renumbers orders 1..N. -/
def removeScoringCategory (c : Criteria) (categoryKey : String) :
    Except Err Criteria :=
  let categories := c.scoringCategories
  match categories.find? (fun cat => cat.key == categoryKey) with
  | none => .error .notFound
  | some category =>
    if category.isSystem then
      .error .forbidden
    else
      let categories' :=
        renumberWith (fun cat n => { cat with order := n }) 0
          (categories.filter (fun cat => cat.key != categoryKey))
      .ok { c with scoringCategories := categories' }

-- ───────────────────────── Header-field operations ────────────────────────────

/-- Source `removeHeaderField`: not-found on unknown key, forbidden on
`isSystem=true`, else filters the field out and renumbers orders 1..N. -/
def removeHeaderField (c : Criteria) (fieldKey : String) : Except Err Criteria :=
  let fields := c.headerFields
  match fields.find? (fun f => f.key == fieldKey) with
  | none => .error .notFound
  | some field =>
    if field.isSystem then
      .error .forbidden
    else
      let fields' :=
        renumberWith (fun f n => { f with order := n }) 0
          (fields.filter (fun f => f.key != fieldKey))
      .ok { c with headerFields := fields' }

-- ───────────────────────── Media-field operations ─────────────────────────────

/-- Source `addMediaField`: derives the stored type from the two DTO flags
(`file` when `isMediaFile`, else `embed` when `isEmbedded`, else `document`);
a derived `document` type is rejected with bad-request before any write. -/
def addMediaField (c : Criteria) (dto : AddMediaFieldDto) (ts : Nat) :
    Except Err Criteria :=
  let fields := c.mediaFields
  let type : MediaFieldType :=
    if dto.isMediaFile then .file else if dto.isEmbedded then .embed else .document
  if type == .document then
    .error .badRequest
  else
    let newField : MediaField :=
      { key := "custom_media_" ++ toString ts
        label := dto.label
        placeholder := dto.placeholder.getD ""
        type := type
        isSystem := false
        order := fields.length + 1
        accept := if dto.isMediaFile then dto.accept else none }
    .ok { c with mediaFields := fields ++ [newField] }

/-- Source `removeMediaField`: not-found on unknown key, forbidden on
`isSystem=true`, else filters the field out and renumbers orders 1..N. -/
def removeMediaField (c : Criteria) (fieldKey : String) : Except Err Criteria :=
  let fields := c.mediaFields
  match fields.find? (fun f => f.key == fieldKey) with
  | none => .error .notFound
  | some field =>
    if field.isSystem then
      .error .forbidden
    else
      let fields' :=
        renumberWith (fun f n => { f with order := n }) 0
          (fields.filter (fun f => f.key != fieldKey))
      .ok { c with mediaFields := fields' }

-- ───────────────────────── Dashboard template composer ───────────────────────

/-- Source `SectionType` (create-templates.dto.ts): three fixed types, two dynamic. -/
inductive SectionType where
  | priorityRepairPlanning
  | documents
  | additionalInformation
  | textField
  | mediaField
deriving DecidableEq, Repr

/-- Source `TemplateStatus` (prisma enum). -/
inductive TemplateStatus where
  | active
  | inactive
deriving DecidableEq, Repr

/-- The `StoredSection` record kept in the `sections` JSON array of a template.
`config` and `style` are opaque JSON objects to the verified operations
(none of them inspects their contents), carried as association lists. -/
structure StoredSection where
  order : Nat
  type : SectionType
  label : String
  isDynamic : Bool
  config : List (String × String)
  style : List (String × String)
deriving DecidableEq, Repr

/-- Source `DEFAULT_FIXED_SECTIONS` (templates.service.ts): the three sections
auto-injected into every template, at orders 100–102. -/
def DEFAULT_FIXED_SECTIONS : List StoredSection :=
  [ { order := 100
      type := .priorityRepairPlanning
      label := "Priority Repair Planning"
      isDynamic := false
      config := []
      style := [] },
    { order := 101
      type := .documents
      label := "Documents"
      isDynamic := false
      config := []
      style := [] },
    { order := 102
      type := .additionalInformation
      label := "Additional Information"
      isDynamic := false
      config := []
      style := [] } ]

/-- Source `mergeWithFixedSections`: keep the sections of the caller and append any of the
three fixed sections whose type the caller did not supply. -/
def mergeWithFixedSections (incoming : List StoredSection) : List StoredSection :=
  let existingTypes := incoming.map (fun s => s.type)
  incoming ++ DEFAULT_FIXED_SECTIONS.filter (fun f => !existingTypes.contains f.type)

/-- Comparison relation of `sortSections`: ascending `order`. -/
def sectionOrderLe (a b : StoredSection) : Prop :=
  a.order ≤ b.order

instance : DecidableRel sectionOrderLe :=
  fun a b => Nat.decLe a.order b.order

instance : IsTotal StoredSection sectionOrderLe :=
  ⟨fun a b => Nat.le_total a.order b.order⟩

instance : IsTrans StoredSection sectionOrderLe :=
  ⟨fun _ _ _ => Nat.le_trans⟩

/-- Source `sortSections`: `[...sections].sort((a, b) => a.order - b.order)` — a
stable sort by `order`, modelled as insertion sort on `order ≤ order`. -/
def sortSections (sections : List StoredSection) : List StoredSection :=
  sections.insertionSort sectionOrderLe

/-- Source `new Map(sections.map(s => [s.type, s])).get(t)`: the LAST stored section
of type `t` wins (later `Map` entries overwrite earlier ones). -/
def sectionLookup (sections : List StoredSection) (t : SectionType) :
    Option StoredSection :=
  (sections.filter (fun s => s.type == t)).getLast?

/-- The `orderedTypes.map((type, index) => ...)` body of `reorderSections`:
left-to-right, the first named type without a stored section aborts with
not-found; otherwise position `i` (0-based) receives order `i + 1`. -/
def reorderGo (lookup : SectionType → Option StoredSection) :
    Nat → List SectionType → Except Err (List StoredSection)
  | _, [] => .ok []
  | i, t :: ts =>
    match lookup t with
    | none => .error .notFound
    | some s => (reorderGo lookup (i + 1) ts).map
        (fun rest => { s with order := i + 1 } :: rest)

/-- Source `reorderSections` (templates.service.ts): rejects with bad-request when
the input length differs from the section count, then maps each named type to
its stored section with `order = index + 1` (not-found when a name misses). -/
def reorderSections (sections : List StoredSection)
    (orderedTypes : List SectionType) : Except Err (List StoredSection) :=
  if orderedTypes.length ≠ sections.length then
    .error .badRequest
  else
    reorderGo (sectionLookup sections) 0 orderedTypes

/-- A `DashboardTemplate` row restricted to the columns the verified
operations use. -/
structure TemplateRow where
  id : String
  name : String
  criteriaId : String
  status : TemplateStatus
  sections : List StoredSection
deriving DecidableEq, Repr

/-- The slice of the database the criteria/template operations touch. -/
structure ConfigDb where
  criterias : List Criteria
  templates : List TemplateRow
deriving DecidableEq, Repr

/-- Source `CreateDashboardTemplateDto` (sections already DTO-validated). -/
structure CreateTemplateDto where
  name : String
  criteriaId : String
  status : Option TemplateStatus
  sections : Option (List StoredSection)
deriving DecidableEq, Repr

/-- Source `UpdateDashboardTemplateDto = PartialType(CreateDashboardTemplateDto)`. -/
structure UpdateTemplateDto where
  name : Option String
  criteriaId : Option String
  status : Option TemplateStatus
  sections : Option (List StoredSection)
deriving DecidableEq, Repr

/-- Source `assertNameIsUnique`: conflict when another template (excluding
`excludeId`) already carries the name. -/
def nameTaken (db : ConfigDb) (name : String) (excludeId : Option String) : Bool :=
  db.templates.any (fun t =>
    t.name == name && (match excludeId with
                       | some ex => t.id != ex
                       | none => true))

/-- Source `DashboardTemplateService.create`: criteria must exist (not-found), name
must be free (conflict); the stored sections are the list given by the caller (empty when
absent) merged with the fixed sections and sorted by order. -/
def createTemplate (db : ConfigDb) (dto : CreateTemplateDto) (newId : String) :
    Except Err ConfigDb :=
  match db.criterias.find? (fun c => c.id == dto.criteriaId) with
  | none => .error .notFound
  | some _ =>
    if nameTaken db dto.name none then
      .error .conflict
    else
      let sections := sortSections (mergeWithFixedSections (dto.sections.getD []))
      let row : TemplateRow :=
        { id := newId
          name := dto.name
          criteriaId := dto.criteriaId
          status := dto.status.getD .active
          sections := sections }
      .ok { db with templates := db.templates ++ [row] }

/-- Source `DashboardTemplateService.update`: template must exist, a new name must be
free, a new criteria must exist; a supplied sections list is merged with the
fixed sections and sorted, an absent one leaves the stored sections as-is. -/
def updateTemplate (db : ConfigDb) (id : String) (dto : UpdateTemplateDto) :
    Except Err ConfigDb :=
  match db.templates.find? (fun t => t.id == id) with
  | none => .error .notFound
  | some _ =>
    if dto.name.isSome && nameTaken db (dto.name.getD "") (some id) then
      .error .conflict
    else if dto.criteriaId.isSome
        && (db.criterias.find? (fun c => c.id == dto.criteriaId.getD "")).isNone then
      .error .notFound
    else
      let newSections := dto.sections.map
        (fun l => sortSections (mergeWithFixedSections l))
      let templates' := db.templates.map (fun t =>
        if t.id == id then
          { t with
            name := dto.name.getD t.name
            status := dto.status.getD t.status
            sections := newSections.getD t.sections
            criteriaId := dto.criteriaId.getD t.criteriaId }
        else t)
      .ok { db with templates := templates' }

/-- Source `InspectionCriteriaService.remove`: not-found on unknown id; blocked with
bad-request while any dashboard template references the criteria; otherwise
the row is deleted. -/
def removeCriteria (db : ConfigDb) (id : String) : Except Err ConfigDb :=
  match db.criterias.find? (fun c => c.id == id) with
  | none => .error .notFound
  | some _ =>
    match db.templates.find? (fun t => t.criteriaId == id) with
    | some _ => .error .badRequest
    | none => .ok { db with criterias := db.criterias.filter (fun c => c.id != id) }

-- ───────────────────────── Property-access workflow ──────────────────────────

/-- Source `PropertyAccessRequest.status` (prisma enum). -/
inductive ReqStatus where
  | pending
  | approved
  | declined
deriving DecidableEq, Repr

/-- Source `ReviewAccessRequestDto.action` (DTO-validated to the two values). -/
inductive ReviewAction where
  | approved
  | declined
deriving DecidableEq, Repr

/-- A `Property` row restricted to the columns the access workflow uses. -/
structure PropertyRow where
  id : String
  propertyManagerId : Option String
deriving DecidableEq, Repr

/-- A `User` row restricted to the columns the access workflow uses. -/
structure UserRow where
  id : String
  email : String
  role : String
  isDeleted : Bool
deriving DecidableEq, Repr

/-- A `PropertyAccess` row (unique on the `(propertyId, userId)` pair). -/
structure PropertyAccessRow where
  id : String
  propertyId : String
  userId : String
  grantedBy : String
  grantedAt : Nat
  expiresAt : Option Nat
  revokedAt : Option Nat
  revokedBy : Option String
deriving DecidableEq, Repr

/-- A `PropertyAccessRequest` row (unique on `(propertyId, requesterId)`). -/
structure AccessRequestRow where
  id : String
  propertyId : String
  requesterId : String
  status : ReqStatus
  reviewedBy : Option String
  reviewedAt : Option Nat
deriving DecidableEq, Repr

/-- An `AuditLog` row restricted to its identifying columns. -/
structure AuditRow where
  userId : String
  propertyId : String
  action : String
  entityType : String
  entityId : String
deriving DecidableEq, Repr

/-- The slice of the database the access workflow touches. -/
structure AccessDb where
  properties : List PropertyRow
  users : List UserRow
  accesses : List PropertyAccessRow
  requests : List AccessRequestRow
  auditLogs : List AuditRow
deriving DecidableEq, Repr

/-- Source `prisma.propertyAccess.findUnique({ where: { propertyId_userId } })`. -/
def findAccess (db : AccessDb) (pid uid : String) : Option PropertyAccessRow :=
  db.accesses.find? (fun a => a.propertyId == pid && a.userId == uid)

/-- Source `prisma.propertyAccessRequest.findUnique({ where: { propertyId_requesterId } })`. -/
def findRequestByKey (db : AccessDb) (pid uid : String) : Option AccessRequestRow :=
  db.requests.find? (fun r => r.propertyId == pid && r.requesterId == uid)

/-- Result shape of `checkDashboardAccess`. -/
structure AccessCheck where
  hasAccess : Bool
  reason : Option String
deriving DecidableEq, Repr

/-- Source `checkDashboardAccess` (property-access.service.ts): admins and the
manager of the property always pass; otherwise the access row decides —
missing row → NO_ACCESS, revoked row → REVOKED, expired non-revoked row →
EXPIRED, else access granted. -/
def checkDashboardAccess (db : AccessDb) (pid uid role : String) (now : Nat) :
    AccessCheck :=
  if role == "ADMIN" then
    { hasAccess := true, reason := none }
  else
    let mgr := (db.properties.find? (fun p => p.id == pid)).bind
      (fun p => p.propertyManagerId)
    if mgr == some uid then
      { hasAccess := true, reason := none }
    else
      match findAccess db pid uid with
      | none => { hasAccess := false, reason := some "NO_ACCESS" }
      | some a =>
        if a.revokedAt.isSome then
          { hasAccess := false, reason := some "REVOKED" }
        else
          match a.expiresAt with
          | some e =>
            if e < now then
              { hasAccess := false, reason := some "EXPIRED" }
            else
              { hasAccess := true, reason := none }
          | none => { hasAccess := true, reason := none }

/-- Source `revokeAccess`: property and an un-revoked access row must exist
(not-found otherwise); the row is updated in place — only `revokedAt` and
`revokedBy` change — and an audit entry is appended. -/
def revokeAccess (db : AccessDb) (pid targetUid revokerId : String) (now : Nat) :
    Except Err AccessDb :=
  match db.properties.find? (fun p => p.id == pid) with
  | none => .error .notFound
  | some _ =>
    match findAccess db pid targetUid with
    | none => .error .notFound
    | some a =>
      if a.revokedAt.isSome then
        .error .notFound
      else
        let accesses' := db.accesses.map (fun x =>
          if x.propertyId == pid && x.userId == targetUid then
            { x with revokedAt := some now, revokedBy := some revokerId }
          else x)
        let audit : AuditRow :=
          { userId := revokerId
            propertyId := pid
            action := "access_revoked"
            entityType := "property_access"
            entityId := a.id }
        .ok { db with accesses := accesses', auditLogs := db.auditLogs ++ [audit] }

/-- Source `prisma.propertyAccess.upsert` as used by `shareDashboard` and the
approval branch of `reviewAccessRequest`: update the keyed row (re-granting
clears `revokedAt`/`revokedBy`), or create a fresh grant. -/
def upsertAccess (accesses : List PropertyAccessRow)
    (pid uid granterId : String) (expiresAt : Option Nat)
    (newId : String) (now : Nat) : List PropertyAccessRow :=
  if accesses.any (fun a => a.propertyId == pid && a.userId == uid) then
    accesses.map (fun a =>
      if a.propertyId == pid && a.userId == uid then
        { a with
          grantedBy := granterId
          grantedAt := now
          expiresAt := expiresAt
          revokedAt := none
          revokedBy := none }
      else a)
  else
    accesses ++
      [{ id := newId
         propertyId := pid
         userId := uid
         grantedBy := granterId
         grantedAt := now
         expiresAt := expiresAt
         revokedAt := none
         revokedBy := none }]

/-- Source `ShareDashboardDto`. -/
structure ShareDashboardDto where
  emailOrUserId : String
  expiresAt : Option Nat
deriving DecidableEq, Repr

/-- Source `shareDashboard`: property must exist, the target user is resolved by id
or email among non-deleted users (not-found otherwise), then the access row
is upserted and an audit entry appended. -/
def shareDashboard (db : AccessDb) (pid granterId : String)
    (dto : ShareDashboardDto) (newAccessId : String) (now : Nat) :
    Except Err AccessDb :=
  match db.properties.find? (fun p => p.id == pid) with
  | none => .error .notFound
  | some _ =>
    match db.users.find? (fun u =>
        (u.id == dto.emailOrUserId || u.email == dto.emailOrUserId)
          && !u.isDeleted) with
    | none => .error .notFound
    | some targetUser =>
      let accesses' :=
        upsertAccess db.accesses pid targetUser.id granterId dto.expiresAt
          newAccessId now
      let audit : AuditRow :=
        { userId := granterId
          propertyId := pid
          action := "dashboard_shared"
          entityType := "property_access"
          entityId := newAccessId }
      .ok { db with accesses := accesses', auditLogs := db.auditLogs ++ [audit] }

/-- Source `ReviewAccessRequestDto`. -/
structure ReviewAccessRequestDto where
  action : ReviewAction
  declineReason : Option String
  expiresAt : Option Nat
deriving DecidableEq, Repr

/-- Source `reviewAccessRequest`: the request must exist and be PENDING; the
reviewer must be an admin or the manager of the property; approval marks the
request APPROVED and upserts the access grant (clearing any revocation),
decline requires a reason and marks the request DECLINED. -/
def reviewAccessRequest (db : AccessDb) (requestId reviewerId : String)
    (dto : ReviewAccessRequestDto) (newAccessId : String) (now : Nat) :
    Except Err AccessDb :=
  match db.requests.find? (fun r => r.id == requestId) with
  | none => .error .notFound
  | some request =>
    if request.status != .pending then
      .error .badRequest
    else
      match db.users.find? (fun u => u.id == reviewerId) with
      | none => .error .notFound
      | some reviewer =>
        let isManager :=
          ((db.properties.find? (fun p => p.id == request.propertyId)).bind
            (fun p => p.propertyManagerId)) == some reviewerId
        if !(reviewer.role == "ADMIN" || isManager) then
          .error .forbidden
        else
          match dto.action with
          | .approved =>
            let requests' := db.requests.map (fun r =>
              if r.id == requestId then
                { r with
                  status := .approved
                  reviewedBy := some reviewerId
                  reviewedAt := some now }
              else r)
            let accesses' :=
              upsertAccess db.accesses request.propertyId request.requesterId
                reviewerId dto.expiresAt newAccessId now
            let audit : AuditRow :=
              { userId := reviewerId
                propertyId := request.propertyId
                action := "access_request_approved"
                entityType := "property_access_request"
                entityId := requestId }
            .ok { db with
                  requests := requests'
                  accesses := accesses'
                  auditLogs := db.auditLogs ++ [audit] }
          | .declined =>
            if dto.declineReason.isNone then
              .error .badRequest
            else
              let requests' := db.requests.map (fun r =>
                if r.id == requestId then
                  { r with
                    status := .declined
                    reviewedBy := some reviewerId
                    reviewedAt := some now }
                else r)
              let audit : AuditRow :=
                { userId := reviewerId
                  propertyId := request.propertyId
                  action := "access_request_declined"
                  entityType := "property_access_request"
                  entityId := requestId }
              .ok { db with
                    requests := requests'
                    auditLogs := db.auditLogs ++ [audit] }

/-- Source `prisma.propertyAccessRequest.upsert` in `requestAccess`: update
the keyed request back to PENDING clearing the review columns, or create a
fresh PENDING request. -/
def upsertRequestPending (requests : List AccessRequestRow)
    (pid requesterId newRequestId : String) : List AccessRequestRow :=
  if (requests.find? (fun r =>
      r.propertyId == pid && r.requesterId == requesterId)).isSome then
    requests.map (fun r =>
      if r.propertyId == pid && r.requesterId == requesterId then
        { r with status := .pending, reviewedBy := none, reviewedAt := none }
      else r)
  else
    requests ++
      [{ id := newRequestId
         propertyId := pid
         requesterId := requesterId
         status := .pending
         reviewedBy := none
         reviewedAt := none }]

/-- Source `requestAccess`: property must exist; an un-revoked access row or a
PENDING request is a conflict; otherwise the request row for the pair is
upserted back to PENDING with its review columns cleared. -/
def requestAccess (db : AccessDb) (pid requesterId newRequestId : String) :
    Except Err AccessDb :=
  match db.properties.find? (fun p => p.id == pid) with
  | none => .error .notFound
  | some _ =>
    let existingAccess := findAccess db pid requesterId
    if (existingAccess.map (fun a => a.revokedAt.isNone)).getD false then
      .error .conflict
    else
      let existingRequest := findRequestByKey db pid requesterId
      if (existingRequest.map (fun r => r.status == .pending)).getD false then
        .error .conflict
      else
        let requests' := upsertRequestPending db.requests pid requesterId newRequestId
        .ok { db with requests := requests' }

-- ═════════════════════════ Helper lemmas ═════════════════════════════════════

theorem renumberWith_length {α : Type} (setOrder : α → Nat → α) :
    ∀ (i : Nat) (l : List α), (renumberWith setOrder i l).length = l.length := by
  intro i l
  induction l generalizing i with
  | nil => rfl
  | cons a as ih => simp [renumberWith, ih]

theorem get_renumberWith {α : Type} (setOrder : α → Nat → α) (getOrder : α → Nat)
    (hset : ∀ a n, getOrder (setOrder a n) = n) :
    ∀ (l : List α) (i j : Nat) (hj : j < (renumberWith setOrder i l).length),
      getOrder ((renumberWith setOrder i l).get ⟨j, hj⟩) = i + j + 1 := by
  intro l
  induction l with
  | nil => intro i j hj; simp [renumberWith] at hj
  | cons a as ih =>
    intro i j hj
    cases j with
    | zero => simp [renumberWith, hset]
    | succ j' =>
      have hj' : j' < (renumberWith setOrder (i + 1) as).length := by
        simpa [renumberWith] using hj
      have := ih (i + 1) j' hj'
      simpa [renumberWith, Nat.add_assoc, Nat.add_comm, Nat.add_left_comm] using this

theorem mem_renumberWith {α : Type} (setOrder : α → Nat → α) :
    ∀ (l : List α) (i : Nat) (a : α), a ∈ l →
      ∃ n, setOrder a n ∈ renumberWith setOrder i l := by
  intro l
  induction l with
  | nil => intro i a ha; cases ha
  | cons b bs ih =>
    intro i a ha
    rcases List.mem_cons.mp ha with rfl | hmem
    · exact ⟨i + 1, List.mem_cons_self _ _⟩
    · obtain ⟨n, hn⟩ := ih (i + 1) a hmem
      exact ⟨n, List.mem_cons_of_mem _ hn⟩

theorem foldl_maxPoints_shift (l : List ScoringCategory) :
    ∀ n : Nat, l.foldl (fun s c => s + c.maxPoints) n
      = n + l.foldl (fun s c => s + c.maxPoints) 0 := by
  induction l with
  | nil => intro n; simp
  | cons a as ih =>
    intro n
    simp only [List.foldl]
    rw [ih (n + a.maxPoints), ih (0 + a.maxPoints)]
    omega

theorem totalMaxPoints_cons (a : ScoringCategory) (l : List ScoringCategory) :
    totalMaxPoints (a :: l) = a.maxPoints + totalMaxPoints l := by
  simp only [totalMaxPoints, List.foldl]
  rw [foldl_maxPoints_shift l (0 + a.maxPoints)]
  omega

theorem totalMaxPoints_append (l₁ l₂ : List ScoringCategory) :
    totalMaxPoints (l₁ ++ l₂) = totalMaxPoints l₁ + totalMaxPoints l₂ := by
  induction l₁ with
  | nil => simp [totalMaxPoints]
  | cons a as ih => simp [totalMaxPoints_cons, ih]; omega

theorem totalMaxPoints_setAtFirst_preserve (p : ScoringCategory → Bool)
    (f : ScoringCategory → ScoringCategory)
    (hf : ∀ a, (f a).maxPoints = a.maxPoints) :
    ∀ l, totalMaxPoints (setAtFirst p f l) = totalMaxPoints l := by
  intro l
  induction l with
  | nil => rfl
  | cons a as ih =>
    by_cases h : p a
    · simp [setAtFirst, h, totalMaxPoints_cons, hf]
    · simp [setAtFirst, h, totalMaxPoints_cons, ih]

theorem totalMaxPoints_setAtFirst_update (key : String) (pval : Nat)
    (f : ScoringCategory → ScoringCategory)
    (hf : ∀ a, (f a).maxPoints = pval) :
    ∀ l : List ScoringCategory, (l.map (fun c => c.key)).Nodup →
      totalMaxPoints (setAtFirst (fun c => c.key == key) f l)
        ≤ totalMaxPoints (l.filter (fun c => c.key != key)) + pval := by
  intro l
  induction l with
  | nil => simp [setAtFirst, totalMaxPoints]
  | cons a as ih =>
    intro hnd
    have hnd' : (as.map (fun c => c.key)).Nodup := (List.nodup_cons.mp hnd).2
    by_cases h : a.key = key
    · have hb : (a.key == key) = true := by simp [h]
      have hbne : (a.key != key) = false := by simp [bne, h]
      have hall : ∀ x ∈ as, x.key ≠ key := by
        intro x hx hxk
        have : a.key ∈ as.map (fun c => c.key) := by
          rw [h, ← hxk]; exact List.mem_map_of_mem _ hx
        exact (List.nodup_cons.mp hnd).1 this
      have hfilter : as.filter (fun c => c.key != key) = as := by
        apply List.filter_eq_self.mpr
        intro x hx; simp [bne, hall x hx]
      rw [List.filter_cons, hbne]
      simp only [Bool.false_eq_true, if_false, hfilter]
      have hset : setAtFirst (fun c => c.key == key) f (a :: as) = f a :: as := by
        simp [setAtFirst, hb]
      rw [hset, totalMaxPoints_cons, hf]
      omega
    · have hb : (a.key == key) = false := by simp [h]
      have hbne : (a.key != key) = true := by simp [bne, h]
      have hstep := ih hnd'
      have hset : setAtFirst (fun c => c.key == key) f (a :: as)
          = a :: setAtFirst (fun c => c.key == key) f as := by
        simp [setAtFirst, hb]
      rw [List.filter_cons, hbne]
      simp only [if_true]
      rw [hset, totalMaxPoints_cons, totalMaxPoints_cons]
      omega

-- ═════════════════════════ Claim theorems ════════════════════════════════════

/-- C7: after a successful `removeHeaderField`, `removeScoringCategory` or
`removeMediaField` of a non-system entry, the `order` values of the
remaining entries form the contiguous sequence 1..N in array position
order. -/
theorem remove_renumbers_contiguously (c : Criteria) (key : String) :
    (∀ c', removeHeaderField c key = .ok c' →
      ∀ i, (hi : i < c'.headerFields.length) →
        (c'.headerFields.get ⟨i, hi⟩).order = i + 1)
  ∧ (∀ c', removeScoringCategory c key = .ok c' →
      ∀ i, (hi : i < c'.scoringCategories.length) →
        (c'.scoringCategories.get ⟨i, hi⟩).order = i + 1)
  ∧ (∀ c', removeMediaField c key = .ok c' →
      ∀ i, (hi : i < c'.mediaFields.length) →
        (c'.mediaFields.get ⟨i, hi⟩).order = i + 1) := by
  refine ⟨?_, ?_, ?_⟩
  · intro c' h i hi
    unfold removeHeaderField at h
    cases hfind : c.headerFields.find? (fun f => f.key == key) with
    | none => simp [hfind] at h
    | some field =>
      simp only [hfind] at h
      by_cases hs : field.isSystem
      · simp [hs] at h
      · rw [if_neg hs] at h
        injection h with h
        subst h
        have := get_renumberWith (fun f n => { f with order := n })
          (fun f => f.order) (fun _ _ => rfl)
          (c.headerFields.filter (fun f => f.key != key)) 0 i hi
        simpa using this
  · intro c' h i hi
    unfold removeScoringCategory at h
    cases hfind : c.scoringCategories.find? (fun f => f.key == key) with
    | none => simp [hfind] at h
    | some cat =>
      simp only [hfind] at h
      by_cases hs : cat.isSystem
      · simp [hs] at h
      · rw [if_neg hs] at h
        injection h with h
        subst h
        have := get_renumberWith (fun cat n => { cat with order := n })
          (fun cat => cat.order) (fun _ _ => rfl)
          (c.scoringCategories.filter (fun f => f.key != key)) 0 i hi
        simpa using this
  · intro c' h i hi
    unfold removeMediaField at h
    cases hfind : c.mediaFields.find? (fun f => f.key == key) with
    | none => simp [hfind] at h
    | some field =>
      simp only [hfind] at h
      by_cases hs : field.isSystem
      · simp [hs] at h
      · rw [if_neg hs] at h
        injection h with h
        subst h
        have := get_renumberWith (fun f n => { f with order := n })
          (fun f => f.order) (fun _ _ => rfl)
          (c.mediaFields.filter (fun f => f.key != key)) 0 i hi
        simpa using this

theorem remove_preserves_system_aux {α : Type}
    (keyOf : α → String) (sysOf : α → Bool) (setOrder : α → Nat → α)
    (l : List α) (key : String) (field : α)
    (hnd : (l.map keyOf).Nodup)
    (hfind : l.find? (fun x => keyOf x == key) = some field)
    (hsys : sysOf field = false) :
    ∀ f ∈ l, sysOf f = true →
      ∃ n, setOrder f n ∈ renumberWith setOrder 0 (l.filter (fun x => keyOf x != key)) := by
  intro f hf hfs
  have hfield_mem : field ∈ l := List.mem_of_find?_eq_some hfind
  have hfield_key := List.find?_some hfind
  have hkey : keyOf f ≠ key := by
    intro hk
    have hfk : keyOf f = keyOf field := by
      rw [hk]
      have : keyOf field = key := by simpa using hfield_key
      exact this.symm
    have hfe : f = field := List.inj_on_of_nodup_map hnd hf hfield_mem hfk
    rw [hfe, hsys] at hfs
    exact Bool.false_ne_true hfs
  have hff : f ∈ l.filter (fun x => keyOf x != key) :=
    List.mem_filter.mpr ⟨hf, by simp [bne, hkey]⟩
  exact mem_renumberWith setOrder _ 0 f hff

-- Concrete data used by witnesses and counterexamples.

/-- A two-entry-per-array criteria: one system entry, one custom entry. -/
def exCriteria : Criteria :=
  { id := "c1"
    name := "Standard Roof Inspection"
    headerFields :=
      [ { key := "t", label := "Title", type := .text, placeholder := ""
          required := true, isSystem := true, order := 1, options := none },
        { key := "w", label := "Weather", type := .text, placeholder := ""
          required := false, isSystem := false, order := 2, options := none } ]
    scoringCategories :=
      [ { key := "s", label := "Surface", maxPoints := 25, isSystem := true, order := 1 },
        { key := "x", label := "Extra", maxPoints := 10, isSystem := false, order := 2 } ]
    mediaFields :=
      [ { key := "m", label := "Media", placeholder := "", type := .file
          isSystem := true, order := 1, accept := none },
        { key := "e", label := "Embed", placeholder := "", type := .embed
          isSystem := false, order := 2, accept := none } ] }

/-- Expected state of `exCriteria` after removing header field `w`. -/
def exCriteriaAfterRemoveW : Criteria :=
  { exCriteria with headerFields :=
      [ { key := "t", label := "Title", type := .text, placeholder := ""
          required := true, isSystem := true, order := 1, options := none } ] }

/-- Witness for C7 at `exCriteria`: removing the custom header field `w`
succeeds and the surviving entry sits at order 1 = position 0 + 1. -/
theorem remove_renumbers_contiguously_witness :
    (exCriteriaAfterRemoveW.headerFields.get ⟨0, by decide⟩).order = 0 + 1 :=
  (remove_renumbers_contiguously exCriteria "w").1
    exCriteriaAfterRemoveW (by decide) 0 (by decide)

/-- C6: for every system-flagged header field, scoring category and media
field, the corresponding remove operation fails with Forbidden (the stored
array unchanged since the error is raised before any write), and a
successful removal keeps every system-flagged entry (modulo renumbering). -/
theorem system_entries_not_removable (c : Criteria) (key : String) :
    (∀ f, c.headerFields.find? (fun x => x.key == key) = some f →
        f.isSystem = true → removeHeaderField c key = .error .forbidden)
  ∧ (∀ g, c.scoringCategories.find? (fun x => x.key == key) = some g →
        g.isSystem = true → removeScoringCategory c key = .error .forbidden)
  ∧ (∀ m, c.mediaFields.find? (fun x => x.key == key) = some m →
        m.isSystem = true → removeMediaField c key = .error .forbidden)
  ∧ ((c.headerFields.map (fun x => x.key)).Nodup →
      ∀ c', removeHeaderField c key = .ok c' →
        ∀ f ∈ c.headerFields, f.isSystem = true →
          ∃ n, ({ f with order := n } : HeaderField) ∈ c'.headerFields)
  ∧ ((c.scoringCategories.map (fun x => x.key)).Nodup →
      ∀ c', removeScoringCategory c key = .ok c' →
        ∀ g ∈ c.scoringCategories, g.isSystem = true →
          ∃ n, ({ g with order := n } : ScoringCategory) ∈ c'.scoringCategories)
  ∧ ((c.mediaFields.map (fun x => x.key)).Nodup →
      ∀ c', removeMediaField c key = .ok c' →
        ∀ m ∈ c.mediaFields, m.isSystem = true →
          ∃ n, ({ m with order := n } : MediaField) ∈ c'.mediaFields) := by
  refine ⟨?_, ?_, ?_, ?_, ?_, ?_⟩
  · intro f hfind hsys
    unfold removeHeaderField
    simp [hfind, hsys]
  · intro g hfind hsys
    unfold removeScoringCategory
    simp [hfind, hsys]
  · intro m hfind hsys
    unfold removeMediaField
    simp [hfind, hsys]
  · intro hnd c' h f hf hfs
    unfold removeHeaderField at h
    cases hfind : c.headerFields.find? (fun x => x.key == key) with
    | none => simp [hfind] at h
    | some field =>
      simp only [hfind] at h
      by_cases hs : field.isSystem
      · simp [hs] at h
      · rw [if_neg hs] at h
        injection h with h
        subst h
        exact remove_preserves_system_aux (fun x => x.key) (fun x => x.isSystem)
          (fun x n => { x with order := n }) c.headerFields key field hnd hfind
          (Bool.not_eq_true _ ▸ (by simpa using hs)) f hf hfs
  · intro hnd c' h g hg hgs
    unfold removeScoringCategory at h
    cases hfind : c.scoringCategories.find? (fun x => x.key == key) with
    | none => simp [hfind] at h
    | some cat =>
      simp only [hfind] at h
      by_cases hs : cat.isSystem
      · simp [hs] at h
      · rw [if_neg hs] at h
        injection h with h
        subst h
        exact remove_preserves_system_aux (fun x => x.key) (fun x => x.isSystem)
          (fun x n => { x with order := n }) c.scoringCategories key cat hnd hfind
          (by simpa using hs) g hg hgs
  · intro hnd c' h m hm hms
    unfold removeMediaField at h
    cases hfind : c.mediaFields.find? (fun x => x.key == key) with
    | none => simp [hfind] at h
    | some field =>
      simp only [hfind] at h
      by_cases hs : field.isSystem
      · simp [hs] at h
      · rw [if_neg hs] at h
        injection h with h
        subst h
        exact remove_preserves_system_aux (fun x => x.key) (fun x => x.isSystem)
          (fun x n => { x with order := n }) c.mediaFields key field hnd hfind
          (by simpa using hs) m hm hms

/-- Witness for C6 at `exCriteria`: deleting the system header field `t`,
the system scoring category `s` and the system media field `m` all fail
with Forbidden. -/
theorem system_entries_not_removable_witness :
    removeHeaderField exCriteria "t" = .error .forbidden ∧
    removeScoringCategory exCriteria "s" = .error .forbidden ∧
    removeMediaField exCriteria "m" = .error .forbidden :=
  ⟨(system_entries_not_removable exCriteria "t").1
      { key := "t", label := "Title", type := .text, placeholder := ""
        required := true, isSystem := true, order := 1, options := none }
      (by decide) (by decide),
   (system_entries_not_removable exCriteria "s").2.1
      { key := "s", label := "Surface", maxPoints := 25, isSystem := true, order := 1 }
      (by decide) (by decide),
   (system_entries_not_removable exCriteria "m").2.2.1
      { key := "m", label := "Media", placeholder := "", type := .file
        isSystem := true, order := 1, accept := none }
      (by decide) (by decide)⟩

/-- C10: addMediaField with neither `isMediaFile` nor `isEmbedded` set
derives type `document` and is rejected with BadRequest before any write;
a successful add never introduces a document-type media field. -/
theorem addMediaField_document_rejected (c : Criteria) (dto : AddMediaFieldDto)
    (ts : Nat) :
    (dto.isMediaFile = false → dto.isEmbedded = false →
      addMediaField c dto ts = .error .badRequest)
  ∧ (∀ c', addMediaField c dto ts = .ok c' →
      ∀ f ∈ c'.mediaFields, f ∈ c.mediaFields ∨ f.type ≠ .document) := by
  constructor
  · intro h1 h2
    unfold addMediaField
    simp [h1, h2]
  · intro c' h f hf
    unfold addMediaField at h
    cases hm : dto.isMediaFile with
    | true =>
      simp only [hm, if_true] at h
      simp only [show ((MediaFieldType.file == MediaFieldType.document) = false) from rfl,
        Bool.false_eq_true, if_false] at h
      injection h with h
      subst h
      simp only at hf
      rcases List.mem_append.mp hf with hl | hr
      · exact Or.inl hl
      · refine Or.inr ?_
        rcases List.mem_singleton.mp hr with rfl
        simp
    | false =>
      cases he : dto.isEmbedded with
      | true =>
        simp only [hm, he, Bool.false_eq_true, if_false, if_true] at h
        simp only [show ((MediaFieldType.embed == MediaFieldType.document) = false) from rfl,
          Bool.false_eq_true, if_false] at h
        injection h with h
        subst h
        simp only at hf
        rcases List.mem_append.mp hf with hl | hr
        · exact Or.inl hl
        · refine Or.inr ?_
          rcases List.mem_singleton.mp hr with rfl
          simp
      | false =>
        simp [hm, he] at h

/-- Witness for C10 at `exCriteria`: adding a media field with both flags
unset is rejected with BadRequest. -/
theorem addMediaField_document_rejected_witness :
    addMediaField exCriteria
      { label := "Docs", placeholder := none, isMediaFile := false
        isEmbedded := false, accept := none } 7 = .error .badRequest :=
  (addMediaField_document_rejected exCriteria
      { label := "Docs", placeholder := none, isMediaFile := false
        isEmbedded := false, accept := none } 7).1 rfl rfl

/-- C1: for a criteria with unique category keys and a current total within
budget, `addScoringCategory` rejects with BadRequest any `maxPoints` whose
addition would push the total over 100 (the array unchanged, the error being
raised before any write), `updateScoringCategory` rejects any new `maxPoints`
where the sum of all other categories plus the new value exceeds 100, and
every successful add/update leaves the total at most 100. -/
theorem scoring_budget_invariant (c : Criteria)
    (hnd : (c.scoringCategories.map (fun x => x.key)).Nodup)
    (hc : totalMaxPoints c.scoringCategories ≤ 100) :
    (∀ (dto : AddScoringCategoryDto) (ts : Nat),
      (totalMaxPoints c.scoringCategories + dto.maxPoints > 100 →
        addScoringCategory c dto ts = .error .badRequest)
      ∧ (∀ c', addScoringCategory c dto ts = .ok c' →
          totalMaxPoints c'.scoringCategories ≤ 100))
  ∧ (∀ (key : String) (dto : UpdateScoringCategoryDto),
      (∀ p, dto.maxPoints = some p →
        totalMaxPoints (c.scoringCategories.filter (fun x => x.key != key)) + p > 100 →
        ∃ e, updateScoringCategory c key dto = .error e)
      ∧ (∀ c', updateScoringCategory c key dto = .ok c' →
          totalMaxPoints c'.scoringCategories ≤ 100)) := by
  constructor
  · intro dto ts
    constructor
    · intro hgt
      unfold addScoringCategory
      rw [if_pos hgt]
    · intro c' h
      unfold addScoringCategory at h
      by_cases hgt : totalMaxPoints c.scoringCategories + dto.maxPoints > 100
      · simp [hgt] at h
      · rw [if_neg hgt] at h
        injection h with h
        subst h
        have hnil : totalMaxPoints ([] : List ScoringCategory) = 0 := rfl
        simp only [totalMaxPoints_append, totalMaxPoints_cons, hnil]
        omega
  · intro key dto
    constructor
    · intro p hp hbud
      cases hfind : c.scoringCategories.find? (fun cat => cat.key == key) with
      | none =>
        refine ⟨.notFound, ?_⟩
        unfold updateScoringCategory
        simp [hfind]
      | some cat =>
        by_cases hsys : cat.isSystem
        · refine ⟨.forbidden, ?_⟩
          unfold updateScoringCategory
          simp [hfind, hsys, hp]
        · refine ⟨.badRequest, ?_⟩
          unfold updateScoringCategory
          simp only [hfind, hp]
          have hs : cat.isSystem = false := by simpa using hsys
          simp [hs, hbud]
    · intro c' h
      unfold updateScoringCategory at h
      cases hfind : c.scoringCategories.find? (fun cat => cat.key == key) with
      | none => simp [hfind] at h
      | some cat =>
        simp only [hfind] at h
        cases hp : dto.maxPoints with
        | none =>
          simp only [hp, Option.isSome_none, Bool.and_false, Bool.false_eq_true,
            if_false] at h
          injection h with h
          subst h
          have hpres := totalMaxPoints_setAtFirst_preserve
            (fun cat => cat.key == key)
            (fun cat =>
              { cat with
                label := dto.label.getD cat.label
                maxPoints := cat.maxPoints })
            (fun a => rfl) c.scoringCategories
          simp only [Option.getD_none]
          rw [hpres]
          exact hc
        | some p =>
          by_cases hsys : cat.isSystem
          · simp [hp, hsys] at h
          · have hs : cat.isSystem = false := by simpa using hsys
            by_cases hbud :
              totalMaxPoints (c.scoringCategories.filter (fun x => x.key != key)) + p > 100
            · simp [hp, hs, hbud] at h
            · simp only [hp, hs, Option.isSome_some, Bool.false_and,
                Bool.false_eq_true, if_false] at h
              rw [if_neg (by simpa using hbud)] at h
              injection h with h
              subst h
              have hupd := totalMaxPoints_setAtFirst_update key p
                (fun cat =>
                  { cat with
                    label := dto.label.getD cat.label
                    maxPoints := (some p).getD cat.maxPoints })
                (fun a => rfl) c.scoringCategories hnd
              simp only [hp]
              omega

/-- Witness for C1 at `exCriteria` (total 35): adding an 80-point custom
category (35 + 80 > 100) is rejected with BadRequest. -/
theorem scoring_budget_invariant_witness :
    addScoringCategory exCriteria { label := "Big", maxPoints := 80 } 3
      = .error .badRequest :=
  ((scoring_budget_invariant exCriteria (by decide) (by decide)).1
    { label := "Big", maxPoints := 80 } 3).1 (by decide)

/-- C4: the access-check contract — admins and the manager of the property pass
unconditionally; otherwise a missing access row yields NO_ACCESS, a revoked
row yields REVOKED, an expired (before now) non-revoked row yields EXPIRED,
and any other row grants access. -/
theorem checkDashboardAccess_contract (db : AccessDb) (pid uid role : String)
    (now : Nat) :
    (role = "ADMIN" →
      checkDashboardAccess db pid uid role now = { hasAccess := true, reason := none })
  ∧ (((db.properties.find? (fun p => p.id == pid)).bind
        (fun p => p.propertyManagerId)) = some uid →
      checkDashboardAccess db pid uid role now = { hasAccess := true, reason := none })
  ∧ (role ≠ "ADMIN" →
      ((db.properties.find? (fun p => p.id == pid)).bind
        (fun p => p.propertyManagerId)) ≠ some uid →
      (findAccess db pid uid = none →
        checkDashboardAccess db pid uid role now
          = { hasAccess := false, reason := some "NO_ACCESS" })
      ∧ (∀ a, findAccess db pid uid = some a → a.revokedAt.isSome = true →
        checkDashboardAccess db pid uid role now
          = { hasAccess := false, reason := some "REVOKED" })
      ∧ (∀ a e, findAccess db pid uid = some a → a.revokedAt = none →
          a.expiresAt = some e → e < now →
        checkDashboardAccess db pid uid role now
          = { hasAccess := false, reason := some "EXPIRED" })
      ∧ (∀ a, findAccess db pid uid = some a → a.revokedAt = none →
          (∀ e, a.expiresAt = some e → ¬ e < now) →
        checkDashboardAccess db pid uid role now
          = { hasAccess := true, reason := none })) := by
  refine ⟨?_, ?_, ?_⟩
  · intro h
    unfold checkDashboardAccess
    simp [h]
  · intro h
    unfold checkDashboardAccess
    by_cases hA : role = "ADMIN"
    · simp [hA]
    · have hA' : (role == "ADMIN") = false := by simp [hA]
      simp [hA', h]
  · intro hA hM
    have hA' : (role == "ADMIN") = false := by simp [hA]
    have hM' : (((db.properties.find? (fun p => p.id == pid)).bind
        (fun p => p.propertyManagerId)) == some uid) = false := by
      simpa using hM
    refine ⟨?_, ?_, ?_, ?_⟩
    · intro hfind
      unfold checkDashboardAccess
      simp [hA', hM', hfind]
    · intro a hfind hrev
      unfold checkDashboardAccess
      simp [hA', hM', hfind, hrev]
    · intro a e hfind hrev hexp hlt
      unfold checkDashboardAccess
      simp [hA', hM', hfind, hrev, hexp, hlt]
    · intro a hfind hrev hexp
      unfold checkDashboardAccess
      cases he : a.expiresAt with
      | none => simp [hA', hM', hfind, hrev, he]
      | some e =>
        have := hexp e he
        simp [hA', hM', hfind, hrev, he, this]

/-- A concrete access database: one property with manager `mgr1` and one
access row for user `u1` that expires at time 10. -/
def exAccessDb : AccessDb :=
  { properties := [{ id := "p1", propertyManagerId := some "mgr1" }]
    users :=
      [ { id := "mgr1", email := "m@x.com", role := "PROPERTY_MANAGER", isDeleted := false },
        { id := "u1", email := "u@x.com", role := "AUTHORIZED_VIEWER", isDeleted := false },
        { id := "adm", email := "a@x.com", role := "ADMIN", isDeleted := false } ]
    accesses :=
      [ { id := "a1", propertyId := "p1", userId := "u1", grantedBy := "mgr1"
          grantedAt := 5, expiresAt := some 10, revokedAt := none, revokedBy := none } ]
    requests := []
    auditLogs := [] }

/-- Witness for C4 at `exAccessDb`: at time 20 user `u1` (not admin, not
manager) holds an access row expired at 10, so the check reports EXPIRED. -/
theorem checkDashboardAccess_contract_witness :
    checkDashboardAccess exAccessDb "p1" "u1" "AUTHORIZED_VIEWER" 20
      = { hasAccess := false, reason := some "EXPIRED" } :=
  (((checkDashboardAccess_contract exAccessDb "p1" "u1" "AUTHORIZED_VIEWER" 20).2.2
      (by decide) (by decide)).2.2.1)
    { id := "a1", propertyId := "p1", userId := "u1", grantedBy := "mgr1"
      grantedAt := 5, expiresAt := some 10, revokedAt := none, revokedBy := none }
    10 (by decide) rfl rfl (by decide)

/-- A criteria referenced by one dashboard template. -/
def exConfigDb : ConfigDb :=
  { criterias := [exCriteria]
    templates :=
      [ { id := "t1", name := "T1", criteriaId := "c1", status := .active
          sections := [] } ] }

/-- The same criteria with no referencing template. -/
def exConfigDb2 : ConfigDb :=
  { criterias := [exCriteria], templates := [] }

/-- Counterexample for C5: deleting criteria `c1` of `exConfigDb`, which is
referenced by template `t1`, fails with BadRequest — not with the Conflict
error the claim names. -/
theorem removeCriteria_conflict_counterexample :
    removeCriteria exConfigDb "c1" = .error .badRequest ∧
    removeCriteria exConfigDb "c1" ≠ .error .conflict := by
  constructor
  · decide
  · decide

/-- C5 (amended): deleting a criteria referenced by at least one dashboard
template is blocked with a BadRequest error (not Conflict), leaving the row
stored; deletion succeeds exactly when no template references it. -/
theorem removeCriteria_blocked_behavior (db : ConfigDb) (id : String)
    (hex : (db.criterias.find? (fun c => c.id == id)).isSome = true) :
    ((∃ t ∈ db.templates, t.criteriaId = id) →
      removeCriteria db id = .error .badRequest)
  ∧ ((∀ t ∈ db.templates, t.criteriaId ≠ id) →
      removeCriteria db id
        = .ok { db with criterias := db.criterias.filter (fun c => c.id != id) }) := by
  cases hfind : db.criterias.find? (fun c => c.id == id) with
  | none => rw [hfind] at hex; simp at hex
  | some c0 =>
    constructor
    · intro ⟨t, ht, hteq⟩
      have hsome : (db.templates.find? (fun t => t.criteriaId == id)).isSome := by
        rw [List.find?_isSome]
        exact ⟨t, ht, by simp [hteq]⟩
      cases hfind2 : db.templates.find? (fun t => t.criteriaId == id) with
      | none => rw [hfind2] at hsome; simp at hsome
      | some t0 =>
        unfold removeCriteria
        rw [hfind, hfind2]
    · intro hnone
      have hfind2 : db.templates.find? (fun t => t.criteriaId == id) = none := by
        rw [List.find?_eq_none]
        intro t ht
        simp [hnone t ht]
      unfold removeCriteria
      rw [hfind, hfind2]

/-- Witness for C5 (amended) at `exConfigDb2`: with no referencing template
the deletion succeeds and removes the criteria row. -/
theorem removeCriteria_blocked_behavior_witness :
    removeCriteria exConfigDb2 "c1"
      = .ok { exConfigDb2 with
              criterias := exConfigDb2.criterias.filter (fun c => c.id != "c1") } :=
  (removeCriteria_blocked_behavior exConfigDb2 "c1" (by decide)).2
    (fun t ht => absurd ht (List.not_mem_nil t))

theorem upsertAccess_clears_revocation (accesses : List PropertyAccessRow)
    (pid uid granterId : String) (expiresAt : Option Nat) (newId : String)
    (now : Nat) :
    ∀ a ∈ upsertAccess accesses pid uid granterId expiresAt newId now,
      a.propertyId = pid → a.userId = uid →
        a.revokedAt = none ∧ a.revokedBy = none := by
  intro a ha hp hu
  unfold upsertAccess at ha
  by_cases hex : accesses.any (fun a => a.propertyId == pid && a.userId == uid)
  · rw [if_pos hex] at ha
    rcases List.mem_map.mp ha with ⟨b, hb, heq⟩
    by_cases hkey : (b.propertyId == pid && b.userId == uid) = true
    · rw [if_pos hkey] at heq
      rw [← heq]
      exact ⟨rfl, rfl⟩
    · rw [if_neg hkey] at heq
      subst heq
      exact absurd (by simp [hp, hu]) hkey
  · rw [if_neg hex] at ha
    rcases List.mem_append.mp ha with hl | hr
    · exfalso
      exact hex (List.any_eq_true.mpr ⟨a, hl, by simp [hp, hu]⟩)
    · rcases List.mem_singleton.mp hr with rfl
      exact ⟨rfl, rfl⟩

/-- C8: revokeAccess updates the keyed PropertyAccess row in place — only
`revokedAt` and `revokedBy` change, no row is deleted and the other tables
are untouched — while re-granting through shareDashboard or through approval
of an access request resets `revokedAt`/`revokedBy` to null. -/
theorem revoke_and_regrant_frame (db : AccessDb)
    (pid uid revokerId granterId reviewerId requestId newAccessId : String)
    (sdto : ShareDashboardDto) (rdto : ReviewAccessRequestDto) (now : Nat) :
    (∀ db', revokeAccess db pid uid revokerId now = .ok db' →
      db'.accesses = db.accesses.map (fun a =>
        if a.propertyId == pid && a.userId == uid then
          { a with revokedAt := some now, revokedBy := some revokerId }
        else a)
      ∧ db'.accesses.length = db.accesses.length
      ∧ db'.properties = db.properties
      ∧ db'.users = db.users
      ∧ db'.requests = db.requests)
  ∧ (∀ db', shareDashboard db pid granterId sdto newAccessId now = .ok db' →
      ∃ u, db.users.find? (fun u =>
          (u.id == sdto.emailOrUserId || u.email == sdto.emailOrUserId)
            && !u.isDeleted) = some u
        ∧ ∀ a ∈ db'.accesses, a.propertyId = pid → a.userId = u.id →
            a.revokedAt = none ∧ a.revokedBy = none)
  ∧ (∀ db', rdto.action = .approved →
      reviewAccessRequest db requestId reviewerId rdto newAccessId now = .ok db' →
      ∃ req, db.requests.find? (fun r => r.id == requestId) = some req
        ∧ ∀ a ∈ db'.accesses, a.propertyId = req.propertyId →
            a.userId = req.requesterId →
            a.revokedAt = none ∧ a.revokedBy = none) := by
  refine ⟨?_, ?_, ?_⟩
  · intro db' h
    unfold revokeAccess at h
    cases hprop : db.properties.find? (fun p => p.id == pid) with
    | none => simp [hprop] at h
    | some prop =>
      simp only [hprop] at h
      cases hfa : findAccess db pid uid with
      | none => simp [hfa] at h
      | some a =>
        simp only [hfa] at h
        by_cases hrev : a.revokedAt.isSome
        · simp [hrev] at h
        · rw [if_neg (by simpa using hrev)] at h
          injection h with h
          subst h
          refine ⟨rfl, by simp, rfl, rfl, rfl⟩
  · intro db' h
    unfold shareDashboard at h
    cases hprop : db.properties.find? (fun p => p.id == pid) with
    | none => simp [hprop] at h
    | some prop =>
      simp only [hprop] at h
      cases huser : db.users.find? (fun u =>
          (u.id == sdto.emailOrUserId || u.email == sdto.emailOrUserId)
            && !u.isDeleted) with
      | none => simp [huser] at h
      | some u =>
        simp only [huser] at h
        injection h with h
        subst h
        refine ⟨u, rfl, ?_⟩
        intro a ha hp hu
        exact upsertAccess_clears_revocation db.accesses pid u.id granterId
          sdto.expiresAt newAccessId now a ha hp hu
  · intro db' hact h
    unfold reviewAccessRequest at h
    cases hreq : db.requests.find? (fun r => r.id == requestId) with
    | none => simp [hreq] at h
    | some req =>
      simp only [hreq] at h
      by_cases hst : (req.status != ReqStatus.pending) = true
      · simp [hst] at h
      · rw [if_neg (by simpa using hst)] at h
        cases hrev : db.users.find? (fun u => u.id == reviewerId) with
        | none => simp [hrev] at h
        | some reviewer =>
          simp only [hrev] at h
          by_cases hcan : (!(reviewer.role == "ADMIN"
              || ((db.properties.find? (fun p => p.id == req.propertyId)).bind
                    (fun p => p.propertyManagerId)) == some reviewerId)) = true
          · rw [if_pos hcan] at h
            simp at h
          · rw [if_neg hcan] at h
            rw [hact] at h
            injection h with h
            subst h
            refine ⟨req, rfl, ?_⟩
            intro a ha hp hu
            exact upsertAccess_clears_revocation db.accesses req.propertyId
              req.requesterId reviewerId rdto.expiresAt newAccessId now a ha hp hu

/-- Expected state of `exAccessDb` after revoking the access of `u1` at time 6. -/
def exAccessDbAfterRevoke : AccessDb :=
  { exAccessDb with
    accesses :=
      [ { id := "a1", propertyId := "p1", userId := "u1", grantedBy := "mgr1"
          grantedAt := 5, expiresAt := some 10, revokedAt := some 6
          revokedBy := some "mgr1" } ]
    auditLogs :=
      [ { userId := "mgr1", propertyId := "p1", action := "access_revoked"
          entityType := "property_access", entityId := "a1" } ] }

/-- Witness for C8 at `exAccessDb`: revoking the access of `u1` at time 6 yields
exactly the in-place update of the keyed row, preserves the row count and
leaves the other tables unchanged. -/
theorem revoke_and_regrant_frame_witness :
    exAccessDbAfterRevoke.accesses = exAccessDb.accesses.map (fun a =>
      if a.propertyId == "p1" && a.userId == "u1" then
        { a with revokedAt := some 6, revokedBy := some "mgr1" }
      else a)
    ∧ exAccessDbAfterRevoke.accesses.length = exAccessDb.accesses.length
    ∧ exAccessDbAfterRevoke.properties = exAccessDb.properties
    ∧ exAccessDbAfterRevoke.users = exAccessDb.users
    ∧ exAccessDbAfterRevoke.requests = exAccessDb.requests :=
  (revoke_and_regrant_frame exAccessDb "p1" "u1" "mgr1" "mgr1" "mgr1" "r0" "a9"
      { emailOrUserId := "u1", expiresAt := none }
      { action := .approved, declineReason := none, expiresAt := none } 6).1
    exAccessDbAfterRevoke (by decide)

/-- C9: under the unique keys of the schema, requestAccess succeeds — upserting
the request back to PENDING with review columns cleared — whenever no
un-revoked access row and no PENDING request exist for the pair (in
particular after an APPROVED request whose access was later revoked), and it
fails with Conflict exactly when an un-revoked access row or a PENDING
request exists. -/
theorem requestAccess_contract (db : AccessDb) (pid uid newRequestId : String)
    (hprop : (db.properties.find? (fun p => p.id == pid)).isSome = true)
    (hacc : ∀ a ∈ db.accesses, ∀ b ∈ db.accesses,
      a.propertyId = b.propertyId → a.userId = b.userId → a = b)
    (hreq : ∀ r ∈ db.requests, ∀ s ∈ db.requests,
      r.propertyId = s.propertyId → r.requesterId = s.requesterId → r = s) :
    (((∀ a ∈ db.accesses, a.propertyId = pid → a.userId = uid →
          a.revokedAt ≠ none)
      ∧ (∀ r ∈ db.requests, r.propertyId = pid → r.requesterId = uid →
          r.status ≠ .pending)) →
      ∃ db', requestAccess db pid uid newRequestId = .ok db'
        ∧ ∀ r ∈ db'.requests, r.propertyId = pid → r.requesterId = uid →
            r.status = .pending ∧ r.reviewedBy = none ∧ r.reviewedAt = none)
  ∧ (((∃ a ∈ db.accesses, a.propertyId = pid ∧ a.userId = uid ∧
          a.revokedAt = none)
      ∨ (∃ r ∈ db.requests, r.propertyId = pid ∧ r.requesterId = uid ∧
          r.status = .pending)) →
      requestAccess db pid uid newRequestId = .error .conflict) := by
  cases hprop2 : db.properties.find? (fun p => p.id == pid) with
  | none => rw [hprop2] at hprop; simp at hprop
  | some prop =>
  constructor
  · rintro ⟨hA, hR⟩
    have hg1 : ((findAccess db pid uid).map (fun a => a.revokedAt.isNone)).getD false
        = false := by
      cases hfa : findAccess db pid uid with
      | none => rfl
      | some a =>
        unfold findAccess at hfa
        have hmem := List.mem_of_find?_eq_some hfa
        have hkey := List.find?_some hfa
        rcases (by simpa using hkey : a.propertyId = pid ∧ a.userId = uid) with ⟨h1, h2⟩
        cases hrv : a.revokedAt with
        | none => exact absurd hrv (hA a hmem h1 h2)
        | some t => simp [hrv]
    have hg2 : ((findRequestByKey db pid uid).map (fun r => r.status == .pending)).getD
        false = false := by
      cases hfr : findRequestByKey db pid uid with
      | none => rfl
      | some r =>
        unfold findRequestByKey at hfr
        have hmem := List.mem_of_find?_eq_some hfr
        have hkey := List.find?_some hfr
        rcases (by simpa using hkey : r.propertyId = pid ∧ r.requesterId = uid) with ⟨h1, h2⟩
        have := hR r hmem h1 h2
        simp [this]
    have hrun : requestAccess db pid uid newRequestId
        = .ok { db with requests :=
            upsertRequestPending db.requests pid uid newRequestId } := by
      unfold requestAccess
      rw [hprop2]
      rw [if_neg (by simp [hg1])]
      rw [if_neg (by simp [hg2])]
    refine ⟨_, hrun, ?_⟩
    intro r hr hp hu
    have hr' : r ∈ upsertRequestPending db.requests pid uid newRequestId := hr
    unfold upsertRequestPending at hr'
    by_cases hex : (db.requests.find? (fun r =>
        r.propertyId == pid && r.requesterId == uid)).isSome
    · rw [if_pos hex] at hr'
      rcases List.mem_map.mp hr' with ⟨s, hs, heq⟩
      by_cases hkey : (s.propertyId == pid && s.requesterId == uid) = true
      · rw [if_pos hkey] at heq
        rw [← heq]
        exact ⟨rfl, rfl, rfl⟩
      · rw [if_neg hkey] at heq
        subst heq
        exact absurd (by simp [hp, hu]) hkey
    · rw [if_neg hex] at hr'
      rcases List.mem_append.mp hr' with hl | hnew
      · exfalso
        have hnone : db.requests.find? (fun r =>
            r.propertyId == pid && r.requesterId == uid) = none :=
          Option.not_isSome_iff_eq_none.mp hex
        exact (List.find?_eq_none.mp hnone r hl) (by simp [hp, hu])
      · rcases List.mem_singleton.mp hnew with rfl
        exact ⟨rfl, rfl, rfl⟩
  · intro hor
    unfold requestAccess
    rw [hprop2]
    rcases hor with ⟨a, ha, hap, hau, harev⟩ | ⟨r, hrm, hrp, hru, hrs⟩
    · have hfa : findAccess db pid uid = some a := by
        cases hfa0 : findAccess db pid uid with
        | none =>
          exfalso
          unfold findAccess at hfa0
          exact (List.find?_eq_none.mp hfa0 a ha) (by simp [hap, hau])
        | some b =>
          unfold findAccess at hfa0
          have hbmem := List.mem_of_find?_eq_some hfa0
          have hbkey := List.find?_some hfa0
          rcases (by simpa using hbkey : b.propertyId = pid ∧ b.userId = uid) with ⟨hb1, hb2⟩
          have hba : b = a := hacc b hbmem a ha (by rw [hb1, hap]) (by rw [hb2, hau])
          rw [hba]
      rw [hfa]
      rw [if_pos (by simp [harev])]
    · by_cases hg1 : ((findAccess db pid uid).map
          (fun a => a.revokedAt.isNone)).getD false = true
      · rw [if_pos hg1]
      · rw [if_neg hg1]
        have hfr : findRequestByKey db pid uid = some r := by
          cases hfr0 : findRequestByKey db pid uid with
          | none =>
            exfalso
            unfold findRequestByKey at hfr0
            exact (List.find?_eq_none.mp hfr0 r hrm) (by simp [hrp, hru])
          | some s =>
            unfold findRequestByKey at hfr0
            have hsmem := List.mem_of_find?_eq_some hfr0
            have hskey := List.find?_some hfr0
            rcases (by simpa using hskey : s.propertyId = pid ∧ s.requesterId = uid) with ⟨h1, h2⟩
            have hsr : s = r := hreq s hsmem r hrm (by rw [h1, hrp]) (by rw [h2, hru])
            rw [hsr]
        rw [hfr]
        rw [if_pos (by simp [hrs])]

/-- Witness for C9 at `exAccessDb`: user `u1` already holds an un-revoked
access row for `p1`, so re-requesting access is rejected with Conflict. -/
theorem requestAccess_contract_witness :
    requestAccess exAccessDb "p1" "u1" "r9" = .error .conflict :=
  (requestAccess_contract exAccessDb "p1" "u1" "r9" (by decide) (by decide)
      (by decide)).2
    (Or.inl ⟨{ id := "a1", propertyId := "p1", userId := "u1", grantedBy := "mgr1"
               grantedAt := 5, expiresAt := some 10, revokedAt := none
               revokedBy := none },
      by decide, rfl, rfl, rfl⟩)

theorem sortSections_perm (l : List StoredSection) :
    (sortSections l).Perm l :=
  List.perm_insertionSort sectionOrderLe l

theorem sortSections_sorted (l : List StoredSection) :
    (sortSections l).Sorted sectionOrderLe :=
  List.sorted_insertionSort sectionOrderLe l

theorem mergeWithFixedSections_present (incoming : List StoredSection) :
    ∀ f ∈ DEFAULT_FIXED_SECTIONS,
      ∃ s ∈ mergeWithFixedSections incoming, s.type = f.type := by
  intro f hf
  unfold mergeWithFixedSections
  by_cases hex : ∃ s ∈ incoming, s.type = f.type
  · obtain ⟨s, hs, hst⟩ := hex
    exact ⟨s, List.mem_append_left _ hs, hst⟩
  · refine ⟨f, List.mem_append_right _ ?_, rfl⟩
    refine List.mem_filter.mpr ⟨hf, ?_⟩
    simp only [Bool.not_eq_true']
    rw [Bool.eq_false_iff]
    intro hcon
    rcases List.contains_iff_exists_mem_beq.mp hcon with ⟨t, htmem, htbeq⟩
    rcases List.mem_map.mp htmem with ⟨s, hs, rfl⟩
    exact hex ⟨s, hs, ((by simpa using htbeq : f.type = s.type)).symm⟩

theorem mergeWithFixedSections_injects (incoming : List StoredSection)
    (f : StoredSection) (hf : f ∈ DEFAULT_FIXED_SECTIONS)
    (hmiss : ∀ s ∈ incoming, s.type ≠ f.type) :
    f ∈ mergeWithFixedSections incoming := by
  unfold mergeWithFixedSections
  refine List.mem_append_right _ (List.mem_filter.mpr ⟨hf, ?_⟩)
  simp only [Bool.not_eq_true']
  rw [Bool.eq_false_iff]
  intro hcon
  rcases List.contains_iff_exists_mem_beq.mp hcon with ⟨t, htmem, htbeq⟩
  rcases List.mem_map.mp htmem with ⟨s, hs, rfl⟩
  exact hmiss s hs ((by simpa using htbeq : f.type = s.type)).symm

/-- C3: after any create, and after any update that supplies a sections
list, the stored template contains sections of all three fixed types; any
fixed type missing from the input is injected as its default definition
(orders 100, 101, 102) and the stored list is sorted by order. -/
theorem fixed_sections_present (db : ConfigDb) (dto : CreateTemplateDto)
    (udto : UpdateTemplateDto) (newId tid : String) :
    (∀ db', createTemplate db dto newId = .ok db' →
      ∃ row, db'.templates = db.templates ++ [row]
        ∧ (∀ f ∈ DEFAULT_FIXED_SECTIONS, ∃ s ∈ row.sections, s.type = f.type)
        ∧ (∀ f ∈ DEFAULT_FIXED_SECTIONS,
            (∀ s ∈ dto.sections.getD [], s.type ≠ f.type) → f ∈ row.sections)
        ∧ row.sections.Sorted sectionOrderLe)
  ∧ (∀ db' l, udto.sections = some l →
      updateTemplate db tid udto = .ok db' →
      ∀ row ∈ db'.templates, row.id = tid →
        (∀ f ∈ DEFAULT_FIXED_SECTIONS, ∃ s ∈ row.sections, s.type = f.type)
        ∧ (∀ f ∈ DEFAULT_FIXED_SECTIONS,
            (∀ s ∈ l, s.type ≠ f.type) → f ∈ row.sections)
        ∧ row.sections.Sorted sectionOrderLe) := by
  constructor
  · intro db' h
    unfold createTemplate at h
    cases hcrit : db.criterias.find? (fun c => c.id == dto.criteriaId) with
    | none => simp [hcrit] at h
    | some c0 =>
      simp only [hcrit] at h
      by_cases hname : nameTaken db dto.name none
      · simp [hname] at h
      · rw [if_neg (by simpa using hname)] at h
        injection h with h
        subst h
        refine ⟨_, rfl, ?_, ?_, ?_⟩
        · intro f hf
          obtain ⟨s, hs, hst⟩ :=
            mergeWithFixedSections_present (dto.sections.getD []) f hf
          exact ⟨s, ((sortSections_perm _).mem_iff).mpr hs, hst⟩
        · intro f hf hmiss
          exact ((sortSections_perm _).mem_iff).mpr
            (mergeWithFixedSections_injects _ f hf hmiss)
        · exact sortSections_sorted _
  · intro db' l hsec h row hrow hid
    unfold updateTemplate at h
    cases hfind : db.templates.find? (fun t => t.id == tid) with
    | none => simp [hfind] at h
    | some t0 =>
      simp only [hfind] at h
      by_cases h1 : (udto.name.isSome
          && nameTaken db (udto.name.getD "") (some tid)) = true
      · rw [if_pos h1] at h
        simp at h
      · rw [if_neg h1] at h
        by_cases h2 : (udto.criteriaId.isSome
            && (db.criterias.find? (fun c =>
                  c.id == udto.criteriaId.getD "")).isNone) = true
        · rw [if_pos h2] at h
          simp at h
        · rw [if_neg h2] at h
          injection h with h
          subst h
          have hrow' : row ∈ db.templates.map (fun t =>
              if t.id == tid then
                { t with
                  name := udto.name.getD t.name
                  status := udto.status.getD t.status
                  sections := (udto.sections.map
                    (fun l => sortSections (mergeWithFixedSections l))).getD t.sections
                  criteriaId := udto.criteriaId.getD t.criteriaId }
              else t) := hrow
          rcases List.mem_map.mp hrow' with ⟨t, ht, heq⟩
          by_cases hkey : (t.id == tid) = true
          · rw [if_pos hkey] at heq
            have hsections : row.sections = sortSections (mergeWithFixedSections l) := by
              rw [← heq]
              simp [hsec]
            refine ⟨?_, ?_, ?_⟩
            · intro f hf
              obtain ⟨s, hs, hst⟩ := mergeWithFixedSections_present l f hf
              rw [hsections]
              exact ⟨s, ((sortSections_perm _).mem_iff).mpr hs, hst⟩
            · intro f hf hmiss
              rw [hsections]
              exact ((sortSections_perm _).mem_iff).mpr
                (mergeWithFixedSections_injects _ f hf hmiss)
            · rw [hsections]
              exact sortSections_sorted _
          · rw [if_neg hkey] at heq
            subst heq
            exact absurd (by simp [hid]) hkey

/-- A create request carrying one dynamic section and none of the fixed
sections. -/
def exTemplateDto : CreateTemplateDto :=
  { name := "T2"
    criteriaId := "c1"
    status := none
    sections :=
      some [ { order := 1, type := .textField, label := "Notes"
               isDynamic := true, config := [], style := [] } ] }

/-- The template row `createTemplate` produces for `exTemplateDto`. -/
def exCreatedRow : TemplateRow :=
  { id := "t2"
    name := "T2"
    criteriaId := "c1"
    status := .active
    sections :=
      [ { order := 1, type := .textField, label := "Notes"
          isDynamic := true, config := [], style := [] },
        { order := 100, type := .priorityRepairPlanning
          label := "Priority Repair Planning", isDynamic := false
          config := [], style := [] },
        { order := 101, type := .documents, label := "Documents"
          isDynamic := false, config := [], style := [] },
        { order := 102, type := .additionalInformation
          label := "Additional Information", isDynamic := false
          config := [], style := [] } ] }

/-- The database state after the witness create. -/
def exConfigDbAfterCreate : ConfigDb :=
  { criterias := [exCriteria], templates := [exCreatedRow] }

/-- Witness for C3: creating from `exTemplateDto` (which supplies only one
dynamic section) yields a section list that is sorted by order — and, per
`exCreatedRow`, contains the three injected fixed sections. -/
theorem fixed_sections_present_witness :
    exCreatedRow.sections.Sorted sectionOrderLe := by
  obtain ⟨row, heq, hpres, hinj, hsort⟩ :=
    (fixed_sections_present exConfigDb2 exTemplateDto
        { name := none, criteriaId := none, status := none, sections := none }
        "t2" "t0").1
      exConfigDbAfterCreate (by decide)
  have h2 : [exCreatedRow] = [row] := heq
  have h3 : exCreatedRow = row := by
    injection h2
  rw [h3]
  exact hsort

theorem reorderGo_missing (lookup : SectionType → Option StoredSection) :
    ∀ (ts : List SectionType) (i : Nat),
      (∃ t ∈ ts, lookup t = none) →
      reorderGo lookup i ts = .error .notFound := by
  intro ts
  induction ts with
  | nil =>
    intro i h
    rcases h with ⟨t, ht, _⟩
    cases ht
  | cons t ts ih =>
    intro i h
    cases hl : lookup t with
    | none => simp [reorderGo, hl]
    | some s =>
      rcases h with ⟨u, hu, hlu⟩
      rcases List.mem_cons.mp hu with rfl | humem
      · rw [hlu] at hl
        cases hl
      · have hrec := ih (i + 1) ⟨u, humem, hlu⟩
        simp [reorderGo, hl, hrec, Except.map]

theorem reorderGo_total (lookup : SectionType → Option StoredSection) :
    ∀ (ts : List SectionType) (i : Nat),
      (∀ t ∈ ts, (lookup t).isSome = true) →
      ∃ out, reorderGo lookup i ts = .ok out
        ∧ out.length = ts.length
        ∧ ∀ j, (hj : j < out.length) → (ho : j < ts.length) →
            ∃ s, lookup (ts.get ⟨j, ho⟩) = some s
              ∧ out.get ⟨j, hj⟩ = { s with order := i + j + 1 } := by
  intro ts
  induction ts with
  | nil =>
    intro i h
    exact ⟨[], rfl, rfl, fun j hj ho => absurd ho (by simp)⟩
  | cons t ts ih =>
    intro i h
    have ht := h t (List.mem_cons_self t ts)
    cases hl : lookup t with
    | none => rw [hl] at ht; simp at ht
    | some s =>
      obtain ⟨out, hout, hlen, hget⟩ :=
        ih (i + 1) (fun u hu => h u (List.mem_cons_of_mem t hu))
      refine ⟨{ s with order := i + 1 } :: out, ?_, ?_, ?_⟩
      · simp [reorderGo, hl, hout, Except.map]
      · simp [hlen]
      · intro j hj ho
        cases j with
        | zero => exact ⟨s, by simpa using hl, by simp⟩
        | succ j' =>
          have hj' : j' < out.length := by simpa using hj
          have ho' : j' < ts.length := by simpa using ho
          obtain ⟨s', hs1, hs2⟩ := hget j' hj' ho'
          refine ⟨s', by simpa using hs1, ?_⟩
          have harith : i + 1 + j' + 1 = i + (j' + 1) + 1 := by omega
          have hcast : ((({ s with order := i + 1 } : StoredSection) :: out).get
              ⟨j' + 1, hj⟩) = out.get ⟨j', hj'⟩ := by simp
          rw [hcast, hs2, harith]

theorem sectionLookup_eq_none_iff (sections : List StoredSection)
    (t : SectionType) :
    sectionLookup sections t = none ↔ ∀ s ∈ sections, s.type ≠ t := by
  unfold sectionLookup
  rw [List.getLast?_eq_none_iff, List.filter_eq_nil_iff]
  constructor
  · intro h s hs hst
    exact h s hs (by simp [hst])
  · intro h s hs hb
    exact h s hs (by simpa using hb)

theorem sectionLookup_some (sections : List StoredSection) (t : SectionType)
    (s : StoredSection) (h : sectionLookup sections t = some s) :
    s ∈ sections ∧ s.type = t := by
  unfold sectionLookup at h
  have hmem := List.mem_of_getLast?_eq_some h
  have hsp := List.mem_filter.mp hmem
  exact ⟨hsp.1, by simpa using hsp.2⟩

/-- A sections list of a template holding one dynamic text field and the fixed
documents section. -/
def c2Sections : List StoredSection :=
  [ { order := 1, type := .textField, label := "A", isDynamic := true
      config := [], style := [] },
    { order := 101, type := .documents, label := "Documents"
      isDynamic := false, config := [], style := [] } ]

/-- An input of correct length that names `text_field` twice and never names
`documents`. -/
def c2Input : List SectionType :=
  [ .textField, .textField ]

/-- The sections `reorderSections` stores for `c2Input`: the text field
duplicated, the documents section silently dropped. -/
def c2Output : List StoredSection :=
  [ { order := 1, type := .textField, label := "A", isDynamic := true
      config := [], style := [] },
    { order := 2, type := .textField, label := "A", isDynamic := true
      config := [], style := [] } ]

/-- Counterexample for C2: `c2Input` has the right length but fails to name
the existing `documents` type (naming `text_field` twice instead), yet
`reorderSections` does not reject it with BadRequest — it succeeds,
duplicating the text field and dropping the documents section. -/
theorem reorder_duplicate_types_not_rejected :
    SectionType.documents ∈ c2Sections.map (fun s => s.type)
  ∧ SectionType.documents ∉ c2Input
  ∧ c2Input.length = c2Sections.length
  ∧ reorderSections c2Sections c2Input ≠ .error .badRequest
  ∧ reorderSections c2Sections c2Input = .ok c2Output := by
  refine ⟨by decide, by decide, by decide, by decide, by decide⟩

/-- C2 (amended): `reorderSections` rejects with BadRequest exactly the
inputs whose length differs from the section count; an input of matching
length naming a type with no section is rejected with NotFound (both
rejections occur before any write); an input that names every existing type
exactly once succeeds and gives the section of the i-th named type order
i + 1. Inputs of matching length that repeat existing types are NOT
rejected. -/
theorem reorderSections_amended (sections : List StoredSection)
    (orderedTypes : List SectionType) :
    (orderedTypes.length ≠ sections.length →
      reorderSections sections orderedTypes = .error .badRequest)
  ∧ (orderedTypes.length = sections.length →
      (∃ t ∈ orderedTypes, ∀ s ∈ sections, s.type ≠ t) →
      reorderSections sections orderedTypes = .error .notFound)
  ∧ ((sections.map (fun s => s.type)).Perm orderedTypes → orderedTypes.Nodup →
      ∃ out, reorderSections sections orderedTypes = .ok out
        ∧ out.length = orderedTypes.length
        ∧ ∀ i, (hi : i < out.length) → (ho : i < orderedTypes.length) →
            ∃ s ∈ sections, s.type = orderedTypes.get ⟨i, ho⟩
              ∧ out.get ⟨i, hi⟩ = { s with order := i + 1 }) := by
  refine ⟨?_, ?_, ?_⟩
  · intro hne
    unfold reorderSections
    rw [if_pos hne]
  · intro hlen ⟨t, ht, hmiss⟩
    unfold reorderSections
    rw [if_neg (fun hc => hc hlen)]
    exact reorderGo_missing _ orderedTypes 0
      ⟨t, ht, (sectionLookup_eq_none_iff sections t).mpr hmiss⟩
  · intro hperm hnd
    have hlen : orderedTypes.length = sections.length := by
      have := hperm.length_eq
      simpa using this.symm
    have hall : ∀ t ∈ orderedTypes, (sectionLookup sections t).isSome = true := by
      intro t htmem
      have htm : t ∈ sections.map (fun s => s.type) :=
        (hperm.mem_iff).mpr htmem
      rcases List.mem_map.mp htm with ⟨s, hs, hst⟩
      unfold sectionLookup
      rw [List.getLast?_isSome]
      intro hnil
      have := List.filter_eq_nil_iff.mp hnil s hs
      exact this (by simp [hst])
    obtain ⟨out, hout, hlen', hget⟩ := reorderGo_total _ orderedTypes 0 hall
    refine ⟨out, ?_, hlen', ?_⟩
    · unfold reorderSections
      rw [if_neg (fun hc => hc hlen)]
      exact hout
    · intro i hi ho
      obtain ⟨s, hs1, hs2⟩ := hget i hi ho
      obtain ⟨hmem, hstype⟩ := sectionLookup_some sections _ s hs1
      exact ⟨s, hmem, hstype, by simpa using hs2⟩

/-- Witness for C2 (amended): a one-element input against the two-section
`c2Sections` is rejected with BadRequest. -/
theorem reorderSections_amended_witness :
    reorderSections c2Sections [SectionType.textField] = .error .badRequest :=
  (reorderSections_amended c2Sections [SectionType.textField]).1 (by decide)

end Strabra
